import Mathlib

/-!
Shallow embedding of the trend-analysis engine of the predictive-maintenance
dashboard (source: src/unnamed/part_001): chunked statistics
(`calculateChunkedMetrics`), the half-to-half comparison of the detailed
export (`calcMetrics` / `calcRoc`), and the CSV report serialization
(`handleExportDetailedReport`).  Sensor values are modelled as exact
rationals (the spec declares them finite reals validated upstream); the
JavaScript results of `x.toFixed(2)` on a finite value are modelled by
rounding to a rational with two decimals, and the non-finite outcomes of a
division by zero (`Infinity`, `-Infinity`, `NaN`) are modelled explicitly by
the `RocStr` type.  JavaScript's negative zero is not modelled (rationals
have a single zero, so `s / 0` follows the sign convention of positive
zero).
-/

namespace Dashboard

/-- One sensor sample, as consumed by `calculateChunkedMetrics`
(fields `tempF`, `pressurePSI`, `vibrationMM`, `timestamp`). -/
structure Reading where
  tempF : ℚ
  pressurePSI : ℚ
  vibrationMM : ℚ
  timestamp : String
deriving Repr, DecidableEq

/-- Rounding of a finite value to two decimals, the numeric content of
JavaScript `x.toFixed(2)`. -/
def toFixed2 (q : ℚ) : ℚ := (round (q * 100) : ℤ) / 100

/-- Left-pad the decimal digits of `n` with zeros to width `d`. -/
def padDigits (d : Nat) (n : Nat) : String :=
  let s := toString n
  String.mk (List.replicate (d - s.length) '0') ++ s

/-- Decimal rendering of JavaScript `x.toFixed(d)` for a finite value. -/
def toFixedStr (d : Nat) (q : ℚ) : String :=
  let m : ℤ := round (q * ((10 : ℚ) ^ d))
  (if m < 0 then "-" else "") ++ toString (m.natAbs / 10 ^ d) ++ "." ++
    padDigits d (m.natAbs % 10 ^ d)

/-- `x.toFixed(2)` as a string. -/
def fixed2Str (q : ℚ) : String := toFixedStr 2 q

/-- Rendering of a JavaScript number in a template string (`${x}`).  All
numbers interpolated by the source at the call sites embedded here are
integers; the non-integer branch is a surrogate (the exact float-to-string
algorithm is a floating-point concern outside this model). -/
def jsNumRepr (q : ℚ) : String :=
  if q.den = 1 then toString q.num else toString q.num ++ "/" ++ toString q.den

/-- The value of a rate-of-change cell: the `"N/A"` sentinel, a finite
two-decimal value, or the string JavaScript `toFixed` produces on a
non-finite division result. -/
inductive RocStr where
  | na
  | num (q : ℚ)
  | posInf
  | negInf
  | nan
deriving Repr, DecidableEq

/-- Whether a rate-of-change cell holds a finite numeric value. -/
def RocStr.isNum : RocStr → Bool
  | .num _ => true
  | _ => false

/-- String rendering of a rate-of-change cell. -/
def rocRender : RocStr → String
  | .na => "N/A"
  | .num q => fixed2Str q
  | .posInf => "Infinity"
  | .negInf => "-Infinity"
  | .nan => "NaN"

/-- JavaScript evaluation of `((last - first) / first * 100).toFixed(2)` on
finite inputs, including the non-finite outcomes when `first = 0`. -/
def jsRocFixed2 (first last : ℚ) : RocStr :=
  if first = 0 then
    if last = 0 then .nan
    else if 0 < last then .posInf
    else .negInf
  else .num (toFixed2 ((last - first) / first * 100))

/-- `Math.max(...l)` over a non-empty list (the guarded call sites never
pass an empty list). -/
def listMax : List ℚ → ℚ
  | [] => 0
  | x :: xs => xs.foldl max x

/-- `Math.min(...l)` over a non-empty list. -/
def listMin : List ℚ → ℚ
  | [] => 0
  | x :: xs => xs.foldl min x

/-- Arithmetic mean, `values.reduce((a, b) => a + b, 0) / values.length`. -/
def mean (l : List ℚ) : ℚ := l.sum / (l.length : ℚ)

/-- Chunk duration (readings ≈ minutes) and unit label. -/
structure ChunkConfig where
  size : Nat
  label : String
deriving Repr, DecidableEq

/-- The `chunkSizes` lookup table keyed by the time-range selector. -/
def chunkSizes (timeRange : ℚ) : Option ChunkConfig :=
  if timeRange = 1 then some ⟨15, "15min"⟩
  else if timeRange = 4 then some ⟨60, "1hr"⟩
  else if timeRange = 8 then some ⟨60, "1hr"⟩
  else if timeRange = 12 then some ⟨120, "2hr"⟩
  else if timeRange = 24 then some ⟨180, "3hr"⟩
  else none

/-- `chunkSizes[timeRange] || { size: 60, label: "1hr" }`. -/
def chunkConfig (timeRange : ℚ) : ChunkConfig :=
  (chunkSizes timeRange).getD ⟨60, "1hr"⟩

/-- `Math.ceil(n / c)` for natural `n` and positive natural `c`. -/
def numChunksOf (n c : Nat) : Nat := (n + c - 1) / c

/-- The readings of chunk `i`: `readings.slice(i * c, Math.min(i * c + c, n))`. -/
def chunkSlice (readings : List Reading) (c i : Nat) : List Reading :=
  (readings.drop (i * c)).take c

/-- One aggregated period.  `tempMean`, `pressureMean`, `vibrationMean` hold
the parsed value of the source's `toFixed(2)` strings; the `RoC` fields hold
the parsed value of the source's rate-of-change strings (`rocRender` and
`fixed2Str` recover the exact strings). -/
structure Chunk where
  chunkIndex : Nat
  label : String
  timeLabel : String
  tempMean : ℚ
  pressureMean : ℚ
  vibrationMean : ℚ
  tempRoC : RocStr
  pressureRoC : RocStr
  vibrationRoC : RocStr
deriving Repr, DecidableEq

/-- The time-based period label of chunk `i` (`hoursAgoEnd` /
`hoursAgoStart` branches of `calculateChunkedMetrics`). -/
def periodLabel (cfg : ChunkConfig) (timeRange : ℚ) (numChunks i : Nat) : String :=
  let hoursAgoEnd := (numChunks - i - 1) * cfg.size / 60
  let hoursAgoStart := (numChunks - i) * cfg.size / 60
  if hoursAgoEnd = 0 then "Last " ++ cfg.label
  else if timeRange = 1 then
    let minsAgoEnd := (numChunks - i - 1) * 15
    let minsAgoStart := (numChunks - i) * 15
    toString minsAgoStart ++ "-" ++ toString minsAgoEnd ++ " mins ago"
  else if hoursAgoStart = hoursAgoEnd then
    toString hoursAgoEnd ++ "hr ago"
  else
    toString hoursAgoStart ++ "-" ++ toString hoursAgoEnd ++ "hrs ago"

/-- The rate-of-change of one metric over a chunk:
`values.length > 1 ? ((values[len-1] - values[0]) / values[0] * 100).toFixed(2) : "0.00"`. -/
def chunkRoc (values : List ℚ) : RocStr :=
  if 1 < values.length then jsRocFixed2 (values.headD 0) (values.getLastD 0)
  else .num 0

/-- The chunk object pushed for index `i` in the generation loop of
`calculateChunkedMetrics`. -/
def mkChunk (cfg : ChunkConfig) (timeRange : ℚ) (numChunks i : Nat)
    (chunkReadings : List Reading) : Chunk :=
  let tempValues := chunkReadings.map Reading.tempF
  let pressureValues := chunkReadings.map Reading.pressurePSI
  let vibrationValues := chunkReadings.map Reading.vibrationMM
  { chunkIndex := i
    label := periodLabel cfg timeRange numChunks i
    timeLabel := cfg.label
    tempMean := toFixed2 (mean tempValues)
    pressureMean := toFixed2 (mean pressureValues)
    vibrationMean := toFixed2 (mean vibrationValues)
    tempRoC := chunkRoc tempValues
    pressureRoC := chunkRoc pressureValues
    vibrationRoC := chunkRoc vibrationValues }

/-- `calculateChunkedMetrics(readings, timeRange)`: empty guard, config
lookup, ceil-division chunk count, generation loop (skipping empty slices,
which for `i < numChunks` never occur), and the final `chunks.reverse()`. -/
def calculateChunkedMetrics (readings : List Reading) (timeRange : ℚ) : List Chunk :=
  if readings.length = 0 then []
  else
    let cfg := chunkConfig timeRange
    let chunkSize := cfg.size
    let numChunks := numChunksOf readings.length chunkSize
    let chunks := (List.range numChunks).filterMap fun i =>
      let chunkReadings := chunkSlice readings chunkSize i
      if chunkReadings.length = 0 then none
      else some (mkChunk cfg timeRange numChunks i chunkReadings)
    chunks.reverse

/-- The chunk list in generation (oldest-first) order, before the final
`reverse`. -/
def genChunks (readings : List Reading) (timeRange : ℚ) : List Chunk :=
  let cfg := chunkConfig timeRange
  let n := numChunksOf readings.length cfg.size
  (List.range n).map fun i => mkChunk cfg timeRange n i (chunkSlice readings cfg.size i)

/-- The data rows of the chunked statistics table, which maps over the
returned (most-recent-first) chunk list directly. -/
def chunkTableRows (readings : List Reading) (timeRange : ℚ) : List Chunk :=
  (calculateChunkedMetrics readings timeRange).map fun chunk => chunk

/-- The data series of the per-period trend chart, which calls
`chunks.reverse()` on the returned list before mapping, re-establishing
chronological order. -/
def chunkChartData (readings : List Reading) (timeRange : ℚ) : List (String × ℚ × RocStr) :=
  ((calculateChunkedMetrics readings timeRange).reverse).map fun c =>
    (c.label, c.tempMean, c.tempRoC)

/-- `midpoint = Math.floor(chronologicalReadings.length / 2)`. -/
def halfMidpoint (readings : List Reading) : Nat := readings.length / 2

/-- `chronologicalReadings.slice(0, midpoint)` — the older half. -/
def firstHalf (readings : List Reading) : List Reading :=
  readings.take (halfMidpoint readings)

/-- `chronologicalReadings.slice(midpoint)` — the newer half. -/
def secondHalf (readings : List Reading) : List Reading :=
  readings.drop (halfMidpoint readings)

/-- Per-half aggregates.  Each field holds the parsed value of the source's
`toFixed(2)` string, or `none` for the `"N/A"` sentinel. -/
structure HalfMetrics where
  tempAvg : Option ℚ
  tempMax : Option ℚ
  tempMin : Option ℚ
  pressureAvg : Option ℚ
  pressureMax : Option ℚ
  pressureMin : Option ℚ
  vibrationAvg : Option ℚ
  vibrationMax : Option ℚ
  vibrationMin : Option ℚ
deriving Repr, DecidableEq

/-- `calcMetrics(data)` of the detailed export (identical logic to the
on-screen `calcHalfMetrics`): per-metric mean/max/min guarded by
`length > 0`, else the `"N/A"` sentinel. -/
def calcMetrics (data : List Reading) : HalfMetrics :=
  let temps := data.map Reading.tempF
  let pressures := data.map Reading.pressurePSI
  let vibrations := data.map Reading.vibrationMM
  { tempAvg := if 0 < temps.length then some (toFixed2 (mean temps)) else none
    tempMax := if 0 < temps.length then some (toFixed2 (listMax temps)) else none
    tempMin := if 0 < temps.length then some (toFixed2 (listMin temps)) else none
    pressureAvg := if 0 < pressures.length then some (toFixed2 (mean pressures)) else none
    pressureMax := if 0 < pressures.length then some (toFixed2 (listMax pressures)) else none
    pressureMin := if 0 < pressures.length then some (toFixed2 (listMin pressures)) else none
    vibrationAvg := if 0 < vibrations.length then some (toFixed2 (mean vibrations)) else none
    vibrationMax := if 0 < vibrations.length then some (toFixed2 (listMax vibrations)) else none
    vibrationMin := if 0 < vibrations.length then some (toFixed2 (listMin vibrations)) else none }

/-- `calcRoc(first, second)` of the detailed export: the `"N/A"` guard on
either side, then `((parseFloat(second) - parseFloat(first)) /
parseFloat(first) * 100).toFixed(2)` with no guard on a zero denominator. -/
def calcRoc (first second : Option ℚ) : RocStr :=
  match first, second with
  | none, _ => .na
  | some _, none => .na
  | some f, some s => jsRocFixed2 f s

/-- The nine half-to-half rate-of-change cells of the trend-analysis
section, in the source's row order (Average, Maximum, Minimum × temperature,
pressure, vibration). -/
def trendRoCs (readings : List Reading) : List RocStr :=
  let fm := calcMetrics (firstHalf readings)
  let sm := calcMetrics (secondHalf readings)
  [calcRoc fm.tempAvg sm.tempAvg, calcRoc fm.pressureAvg sm.pressureAvg,
   calcRoc fm.vibrationAvg sm.vibrationAvg,
   calcRoc fm.tempMax sm.tempMax, calcRoc fm.pressureMax sm.pressureMax,
   calcRoc fm.vibrationMax sm.vibrationMax,
   calcRoc fm.tempMin sm.tempMin, calcRoc fm.pressureMin sm.pressureMin,
   calcRoc fm.vibrationMin sm.vibrationMin]

/-! ### Report serialization (`handleExportDetailedReport`) -/

/-- Asset metadata consumed by the report header. -/
structure Asset where
  name : String
  location : Option String
  manufacturer : Option String
  model : Option String
deriving Repr, DecidableEq

/-- Latest prediction consumed by the report. -/
structure Prediction where
  probability : ℚ
  riskLevel : String
  modelVersion : Option String
deriving Repr, DecidableEq

/-- The ambient clock reading captured by `new Date()` at the moment the
export handler runs: the date part of `toISOString()` and the full
`toLocaleString()` text. -/
structure DateStamp where
  isoDate : String
  localeString : String
deriving Repr, DecidableEq

/-- JavaScript truthy-or-default `value || "N/A"` on an optional string
(both absence and the empty string are falsy). -/
def orNA : Option String → String
  | none => "N/A"
  | some s => if s = "" then "N/A" else s

/-- Whitespace characters matched by the `\s` class at the call site. -/
def isWsChar (c : Char) : Bool :=
  c = ' ' ∨ c = '\t' ∨ c = '\n' ∨ c = '\r' ∨ c = '\x0c' ∨ c = '\x0b'

/-- `name.replace(/\s+/g, "_")` over a character list: each maximal run of
whitespace becomes one underscore. -/
def squashWsAux : List Char → List Char
  | [] => []
  | c :: rest =>
    if isWsChar c then '_' :: squashWsAux (rest.dropWhile fun d => isWsChar d)
    else c :: squashWsAux rest
termination_by l => l.length
decreasing_by
  · simp only [List.length_cons]
    exact Nat.lt_succ_of_le (List.dropWhile_sublist _).length_le
  · simp

/-- `name.replace(/\s+/g, "_")`. -/
def squashWs (s : String) : String := String.mk (squashWsAux s.data)

/-- The export filename
`` `${asset.name.replace(/\s+/g, "_")}_${timeRange}h_report_${timestamp}.csv` ``. -/
def reportFilename (asset : Asset) (timeRange : ℚ) (now : DateStamp) : String :=
  squashWs asset.name ++ "_" ++ jsNumRepr timeRange ++ "h_report_" ++ now.isoDate ++ ".csv"

/-- One row of the time-segment section of the CSV. -/
def chunkCsvLine (chunk : Chunk) : String :=
  "\"" ++ chunk.label ++ "\",\"" ++ fixed2Str chunk.tempMean ++ "\",\"" ++
    rocRender chunk.tempRoC ++ "\",\"" ++ fixed2Str chunk.pressureMean ++ "\",\"" ++
    rocRender chunk.pressureRoC ++ "\",\"" ++ fixed2Str chunk.vibrationMean ++ "\",\"" ++
    rocRender chunk.vibrationRoC ++ "\""

/-- One row of the half-to-half trend section (Average/Maximum/Minimum). -/
def trendCsvLine (rowName : String) (temp pressure vibration : RocStr) : String :=
  "\"" ++ rowName ++ "\",\"" ++ rocRender temp ++ "%\",\"" ++
    rocRender pressure ++ "%\",\"" ++ rocRender vibration ++ "%\""

/-- Every report line after the `"Generated: ..."` line, in push order:
time-range and count header, asset information, current sensor status
(guarded on a non-empty reading list, reading the newest-first `readings[0]`),
the half-to-half trend section, the time-segment section (guarded on a
non-empty chunk list), and the prediction section. -/
def reportBodyLines (asset : Asset) (prediction : Option Prediction)
    (readings : List Reading) (timeRange : ℚ) : List String :=
  let chronologicalReadings := readings.reverse
  let chunks := calculateChunkedMetrics chronologicalReadings timeRange
  let fm := calcMetrics (firstHalf chronologicalReadings)
  let sm := calcMetrics (secondHalf chronologicalReadings)
  ["\"Time Range: " ++ jsNumRepr timeRange ++ " hours\"",
   "\"Total Readings: " ++ toString readings.length ++ "\"",
   "",
   "\"ASSET INFORMATION\"",
   "\"Type\",\"" ++ asset.name ++ "\"",
   "\"Location\",\"" ++ orNA asset.location ++ "\"",
   "\"Manufacturer\",\"" ++ orNA asset.manufacturer ++ "\"",
   "\"Model\",\"" ++ orNA asset.model ++ "\""] ++
  (match prediction with
   | some p =>
     ["\"Risk Level\",\"" ++ p.riskLevel ++ "\"",
      "\"Failure Probability\",\"" ++ toFixedStr 1 (p.probability * 100) ++ "%\""]
   | none => []) ++
  [""] ++
  (if 0 < readings.length then
    let r0 := readings.headD ⟨0, 0, 0, ""⟩
    ["\"CURRENT SENSOR STATUS\"",
     "\"Temperature\",\"" ++ jsNumRepr r0.tempF ++ "°F\"",
     "\"Pressure\",\"" ++ jsNumRepr r0.pressurePSI ++ " PSI\"",
     "\"Vibration\",\"" ++ jsNumRepr r0.vibrationMM ++ " mm\"",
     ""]
   else []) ++
  ["\"TREND ANALYSIS: FIRST HALF vs SECOND HALF\"",
   "\"Metric\",\"Temperature (°F) Change %\",\"Pressure (PSI) Change %\",\"Vibration (mm) Change %\"",
   trendCsvLine "Average" (calcRoc fm.tempAvg sm.tempAvg)
     (calcRoc fm.pressureAvg sm.pressureAvg) (calcRoc fm.vibrationAvg sm.vibrationAvg),
   trendCsvLine "Maximum" (calcRoc fm.tempMax sm.tempMax)
     (calcRoc fm.pressureMax sm.pressureMax) (calcRoc fm.vibrationMax sm.vibrationMax),
   trendCsvLine "Minimum" (calcRoc fm.tempMin sm.tempMin)
     (calcRoc fm.pressureMin sm.pressureMin) (calcRoc fm.vibrationMin sm.vibrationMin),
   ""] ++
  (if 0 < chunks.length then
    ["\"TIME SEGMENT TREND ANALYSIS\"",
     "\"Period\",\"Temp Avg (°F)\",\"Temp RoC %\",\"Pressure Avg (PSI)\",\"Pressure RoC %\",\"Vibration Avg (mm)\",\"Vibration RoC %\""] ++
    chunks.map chunkCsvLine ++ [""]
   else []) ++
  (match prediction with
   | some p =>
     ["\"ML PREDICTION\"",
      "\"Failure Probability\",\"" ++ toFixedStr 1 (p.probability * 100) ++ "%\"",
      "\"Risk Level\",\"" ++ p.riskLevel ++ "\""] ++
     (match p.modelVersion with
      | some v => if v = "" then [] else ["\"Model Version\",\"" ++ v ++ "\""]
      | none => [])
   | none => [])

/-- All report lines in push order: the title line, the clock-dependent
`"Generated: ..."` line, then the clock-independent body. -/
def buildReportLines (asset : Asset) (prediction : Option Prediction)
    (readings : List Reading) (timeRange : ℚ) (now : DateStamp) : List String :=
  ("\"Asset Detailed Report - " ++ asset.name ++ "\"") ::
  ("\"Generated: " ++ now.localeString ++ "\"") ::
  reportBodyLines asset prediction readings timeRange

/-- `lines.join("\n")`: the lines separated by newline characters. -/
def joinLines : List String → String
  | [] => ""
  | [l] => l
  | l :: ls => l ++ "\x0a" ++ joinLines ls

/-- The serialized report text, `lines.join("\n")`. -/
def buildReport (asset : Asset) (prediction : Option Prediction)
    (readings : List Reading) (timeRange : ℚ) (now : DateStamp) : String :=
  joinLines (buildReportLines asset prediction readings timeRange now)

/-! ### A mutable-array model for the copy-then-reverse idiom -/

/-- A heap of JavaScript arrays of readings, addressed by allocation index. -/
structure ArrayHeap where
  arrays : List (List Reading)
deriving Repr, DecidableEq

/-- Dereference an array (out-of-range reads yield the empty array). -/
def heapGet (h : ArrayHeap) (r : Nat) : List Reading := h.arrays.getD r []

/-- `[...a]`: allocate a fresh array holding a copy of `a`'s elements,
returning the new reference. -/
def spreadAlloc (h : ArrayHeap) (r : Nat) : Nat × ArrayHeap :=
  (h.arrays.length, ⟨h.arrays ++ [heapGet h r]⟩)

/-- `a.reverse()`: reverse the referenced array in place. -/
def reverseInPlace (h : ArrayHeap) (r : Nat) : ArrayHeap :=
  ⟨h.arrays.set r (heapGet h r).reverse⟩

/-- `const chronologicalReadings = [...readings].reverse()`: spread-copy,
then reverse the copy in place; returns the new reference and the heap. -/
def chronoSetup (h : ArrayHeap) (r : Nat) : Nat × ArrayHeap :=
  let alloc := spreadAlloc h r
  (alloc.1, reverseInPlace alloc.2 alloc.1)

/-! ### Helper lemmas -/

lemma chunkConfig_size_pos (t : ℚ) : 0 < (chunkConfig t).size := by
  simp only [chunkConfig, chunkSizes]
  repeat' split
  all_goals simp [Option.getD]

lemma numChunksOf_eq {n c : Nat} (hc : 0 < c) (hn : 0 < n) :
    numChunksOf n c = (n - 1) / c + 1 := by
  unfold numChunksOf
  have h : n + c - 1 = (n - 1) + c := by omega
  rw [h, Nat.add_div_right _ hc]

lemma lt_numChunksOf_iff {n c i : Nat} (hc : 0 < c) (hn : 0 < n) :
    i < numChunksOf n c ↔ i * c < n := by
  rw [numChunksOf_eq hc hn, Nat.lt_succ_iff, Nat.le_div_iff_mul_le hc]
  omega

lemma le_numChunksOf_mul {n c : Nat} (hc : 0 < c) : n ≤ numChunksOf n c * c := by
  rcases Nat.eq_zero_or_pos n with h | h
  · omega
  · have h2 : (n - 1) / c < numChunksOf n c := by
      rw [numChunksOf_eq hc h]; omega
    have h3 := (Nat.div_lt_iff_lt_mul hc).mp h2
    omega

lemma numChunksOf_zero {c : Nat} (hc : 0 < c) : numChunksOf 0 c = 0 := by
  unfold numChunksOf
  exact Nat.div_eq_of_lt (by omega)

lemma chunkSlice_length (readings : List Reading) (c i : Nat) :
    (chunkSlice readings c i).length = min c (readings.length - i * c) := by
  simp [chunkSlice]

lemma chunkSlice_length_pos {readings : List Reading} {c i : Nat} (hc : 0 < c)
    (h : i * c < readings.length) : 0 < (chunkSlice readings c i).length := by
  rw [chunkSlice_length]; omega

lemma filterMap_eq_map_of_forall {α β : Type} {l : List α} {f : α → Option β} {g : α → β}
    (h : ∀ a ∈ l, f a = some (g a)) : l.filterMap f = l.map g := by
  induction l with
  | nil => rfl
  | cons x xs ih =>
    simp only [List.filterMap_cons, h x (by simp), List.map_cons]
    rw [ih (fun a ha => h a (by simp [ha]))]

lemma calculateChunkedMetrics_eq_rev (readings : List Reading) (t : ℚ) :
    calculateChunkedMetrics readings t = (genChunks readings t).reverse := by
  have hc := chunkConfig_size_pos t
  by_cases h : readings.length = 0
  · have hnil : readings = [] := List.length_eq_zero.mp h
    subst hnil
    simp [calculateChunkedMetrics, genChunks, numChunksOf_zero hc]
  · simp only [calculateChunkedMetrics, genChunks, if_neg h]
    congr 1
    apply filterMap_eq_map_of_forall
      (g := fun i => mkChunk (chunkConfig t) t
        (numChunksOf readings.length (chunkConfig t).size) i
        (chunkSlice readings (chunkConfig t).size i))
    intro i hi
    rw [List.mem_range] at hi
    have hn : 0 < readings.length := Nat.pos_of_ne_zero h
    have hlt := (lt_numChunksOf_iff hc hn).mp hi
    have hlen := chunkSlice_length_pos hc hlt
    rw [if_neg (by omega)]

lemma genChunks_length (readings : List Reading) (t : ℚ) :
    (genChunks readings t).length = numChunksOf readings.length (chunkConfig t).size := by
  simp [genChunks]

lemma calculateChunkedMetrics_length (readings : List Reading) (t : ℚ) :
    (calculateChunkedMetrics readings t).length
      = numChunksOf readings.length (chunkConfig t).size := by
  rw [calculateChunkedMetrics_eq_rev, List.length_reverse, genChunks_length]

lemma mem_calculateChunkedMetrics {readings : List Reading} {t : ℚ} {ch : Chunk}
    (h : ch ∈ calculateChunkedMetrics readings t) :
    ∃ i < numChunksOf readings.length (chunkConfig t).size,
      ch = mkChunk (chunkConfig t) t (numChunksOf readings.length (chunkConfig t).size) i
        (chunkSlice readings (chunkConfig t).size i) := by
  rw [calculateChunkedMetrics_eq_rev, List.mem_reverse] at h
  simp only [genChunks, List.mem_map, List.mem_range] at h
  obtain ⟨i, hi, rfl⟩ := h
  exact ⟨i, hi, rfl⟩

lemma flatten_chunkSlices (readings : List Reading) (c : Nat) :
    ∀ N : Nat, ((List.range N).map (chunkSlice readings c)).flatten = readings.take (N * c)
  | 0 => by simp
  | N + 1 => by
    rw [List.range_succ N, List.map_append, List.flatten_append,
      flatten_chunkSlices readings c N]
    simp [chunkSlice, Nat.succ_mul, List.take_add]

lemma flatten_chunkSlices_all (readings : List Reading) {c : Nat} (hc : 0 < c) :
    ((List.range (numChunksOf readings.length c)).map (chunkSlice readings c)).flatten
      = readings := by
  rw [flatten_chunkSlices]
  exact List.take_of_length_le (le_numChunksOf_mul hc)

lemma genChunks_map_chunkIndex (readings : List Reading) (t : ℚ) :
    (genChunks readings t).map Chunk.chunkIndex = List.range (genChunks readings t).length := by
  simp only [genChunks, List.map_map, List.length_map, List.length_range]
  have h : (Chunk.chunkIndex ∘ fun i =>
      mkChunk (chunkConfig t) t (numChunksOf readings.length (chunkConfig t).size) i
        (chunkSlice readings (chunkConfig t).size i)) = id := by
    funext i; rfl
  rw [h, List.map_id]

/-- The per-metric values of a chunk's slice, as extracted by the
generation loop (`chunkReadings.map((r) => r.metric)`). -/
def sliceVals (f : Reading → ℚ) (readings : List Reading) (t : ℚ) (i : Nat) : List ℚ :=
  (chunkSlice readings (chunkConfig t).size i).map f

/-- The behaviour of one chunk rate-of-change cell over its value list:
with two or more values and a nonzero first value the two-decimal
percentage formula; with a zero first value a non-finite result — never the
`"N/A"` sentinel and never a finite number: `NaN` when the last value is
also zero, otherwise the correspondingly signed infinity; with fewer than
two values the `0.00` constant. -/
def rocFieldSpec (vals : List ℚ) (r : RocStr) : Prop :=
  (1 < vals.length →
    (vals.headD 0 ≠ 0 →
      r = .num (toFixed2 ((vals.getLastD 0 - vals.headD 0) / vals.headD 0 * 100))) ∧
    (vals.headD 0 = 0 →
      r.isNum = false ∧ r ≠ RocStr.na ∧
      (vals.getLastD 0 = 0 → r = RocStr.nan) ∧
      (0 < vals.getLastD 0 → r = RocStr.posInf) ∧
      (vals.getLastD 0 < 0 → r = RocStr.negInf))) ∧
  (vals.length ≤ 1 → r = .num 0)

lemma headD_mem {α : Type} (d : α) {l : List α} (h : l ≠ []) : l.headD d ∈ l := by
  cases l with
  | nil => exact absurd rfl h
  | cons x xs => exact List.mem_cons_self x xs

lemma rocRender_num_zero : rocRender (RocStr.num 0) = "0.00" := by
  have h : round ((0 : ℚ) * (10 : ℚ) ^ 2) = 0 := by norm_num
  simp only [rocRender, fixed2Str, toFixedStr, h]
  decide

lemma buildReport_clock_shape (asset : Asset) (prediction : Option Prediction)
    (readings : List Reading) (t : ℚ) (now : DateStamp) :
    buildReport asset prediction readings t now
      = ("\"Asset Detailed Report - " ++ asset.name ++ "\"") ++ "\x0a"
        ++ (("\"Generated: " ++ now.localeString ++ "\"") ++ "\x0a"
          ++ joinLines (reportBodyLines asset prediction readings t)) := rfl

lemma chunkRoc_spec (vals : List ℚ) : rocFieldSpec vals (chunkRoc vals) := by
  constructor
  · intro h1
    constructor
    · intro h0
      unfold chunkRoc jsRocFixed2
      rw [if_pos h1, if_neg h0]
    · intro h0
      unfold chunkRoc jsRocFixed2
      rw [if_pos h1, if_pos h0]
      refine ⟨?_, ?_, ?_, ?_, ?_⟩
      · repeat' split
        all_goals rfl
      · repeat' split
        all_goals decide
      · intro hl
        rw [if_pos hl]
      · intro hl
        rw [if_neg hl.ne', if_pos hl]
      · intro hl
        rw [if_neg hl.ne, if_neg (not_lt.mpr hl.le)]
  · intro h1
    unfold chunkRoc
    rw [if_neg (Nat.not_lt.mpr h1)]

/-! ### Concrete inputs for witnesses and counterexamples -/

/-- `k` chronological readings with all metrics `j + 1` at position `j`. -/
def demoR (k : Nat) : List Reading :=
  (List.range k).map fun (j : Nat) => ⟨(j : ℚ) + 1, (j : ℚ) + 1, (j : ℚ) + 1, ""⟩

lemma demoR_length (k : Nat) : (demoR k).length = k := by
  rw [demoR, List.length_map, List.length_range]

/-- Two chronological readings whose first metric values are zero. -/
def zeroFirstReadings : List Reading :=
  [⟨0, 0, 0, "2024-01-01T00:00:00Z"⟩, ⟨5, 5, 5, "2024-01-01T00:01:00Z"⟩]

/-- Two chronological readings with nonzero first metric values. -/
def demoPair : List Reading :=
  [⟨1, 1, 1, "2024-01-01T00:00:00Z"⟩, ⟨3, 3, 3, "2024-01-01T00:01:00Z"⟩]

/-- A default chunk for guarded list access in closed statements. -/
def defChunk : Chunk := ⟨0, "", "", 0, 0, 0, .num 0, .num 0, .num 0⟩

/-- A concrete asset for report counterexamples. -/
def demoAsset : Asset := ⟨"Pump A", none, none, none⟩

/-- A clock reading. -/
def stampA : DateStamp := ⟨"2024-01-01", "1/1/2024, 10:00:00 AM"⟩

/-- A later clock reading. -/
def stampB : DateStamp := ⟨"2024-01-02", "1/2/2024, 9:00 AM"⟩

/-- One chronological reading. -/
def demoOne : List Reading := [⟨2, 2, 2, "2024-01-01T00:00:00Z"⟩]

/-- A one-array heap whose array holds two readings newest-first. -/
def demoHeap : ArrayHeap := ⟨[[⟨1, 1, 1, "newest"⟩, ⟨2, 2, 2, "oldest"⟩]]⟩

/-! ### Claims -/

/-- C1 counterexample: with the two chronological readings `[0, 5]` the
first-half temperature average is the numeric `0.00`, not the sentinel, and
`calcRoc` divides by it, producing `Infinity` — not the claimed
`"not available"` and not any finite two-decimal number. -/
theorem c1_roc_zero_denominator_cex :
    calcRoc (calcMetrics (firstHalf zeroFirstReadings)).tempAvg
        (calcMetrics (secondHalf zeroFirstReadings)).tempAvg = RocStr.posInf ∧
    RocStr.posInf ≠ RocStr.na ∧ RocStr.posInf.isNum = false := by
  refine ⟨?_, by decide, by decide⟩
  norm_num [calcRoc, calcMetrics, jsRocFixed2, firstHalf, secondHalf, halfMidpoint,
    zeroFirstReadings, mean, toFixed2, round_zero, round_ofNat]

/-- C1 (amended): in the half-to-half operation `calcRoc` returns the
`"N/A"` sentinel exactly when either aggregate is the sentinel; when both
are numeric and the first is `0` it returns a non-finite value (`NaN` when
the second is also `0`, otherwise a signed infinity), never the sentinel
and never a finite number; otherwise it returns
`(second - first) / first * 100` rounded to two decimals. -/
theorem c1_calcRoc_cases (f s : Option ℚ) :
    (f = none → calcRoc f s = RocStr.na) ∧
    (s = none → calcRoc f s = RocStr.na) ∧
    (∀ qf qs : ℚ, f = some qf → s = some qs →
      ((qf = 0 → RocStr.isNum (calcRoc f s) = false ∧ calcRoc f s ≠ RocStr.na) ∧
       (qf = 0 → qs = 0 → calcRoc f s = RocStr.nan) ∧
       (qf = 0 → 0 < qs → calcRoc f s = RocStr.posInf) ∧
       (qf = 0 → qs < 0 → calcRoc f s = RocStr.negInf) ∧
       (qf ≠ 0 → calcRoc f s = RocStr.num (toFixed2 ((qs - qf) / qf * 100))))) := by
  refine ⟨?_, ?_, ?_⟩
  · rintro rfl; rfl
  · rintro rfl; cases f <;> rfl
  · rintro qf qs rfl rfl
    refine ⟨?_, ?_, ?_, ?_, ?_⟩
    · intro h0
      show RocStr.isNum (jsRocFixed2 qf qs) = false ∧ jsRocFixed2 qf qs ≠ RocStr.na
      unfold jsRocFixed2
      rw [if_pos h0]
      constructor
      · repeat' split
        all_goals rfl
      · repeat' split
        all_goals decide
    · intro h0 h1
      show jsRocFixed2 qf qs = RocStr.nan
      unfold jsRocFixed2
      rw [if_pos h0, if_pos h1]
    · intro h0 h1
      show jsRocFixed2 qf qs = RocStr.posInf
      unfold jsRocFixed2
      rw [if_pos h0, if_neg (by exact h1.ne'), if_pos h1]
    · intro h0 h1
      show jsRocFixed2 qf qs = RocStr.negInf
      unfold jsRocFixed2
      rw [if_pos h0, if_neg (by exact h1.ne), if_neg (by exact not_lt.mpr h1.le)]
    · intro h0
      show jsRocFixed2 qf qs = RocStr.num (toFixed2 ((qs - qf) / qf * 100))
      unfold jsRocFixed2
      rw [if_neg h0]

/-- C1 witness: with both aggregates numeric and the first nonzero,
`calcRoc` yields the rounded percentage formula. -/
theorem c1_calcRoc_cases_witness :
    calcRoc (some 2) (some 3) = RocStr.num (toFixed2 ((3 - 2) / 2 * 100)) :=
  (((c1_calcRoc_cases (some 2) (some 3)).2.2 2 3 rfl rfl).2.2.2.2) (by simp)

/-- C2: for a non-empty reading list and the chunk size resolved from the
selector, `calculateChunkedMetrics` produces exactly `ceil(n / c)` chunks
(characterized by `(len - 1) * c < n ≤ len * c`), the per-chunk reading
counts sum to `n`, every chunk except possibly the last has exactly `c`
readings, and the generated slices partition the input in order, chunk `i`
covering `readings[i * c, min((i + 1) * c, n))`. -/
theorem c2_chunking_partition (readings : List Reading) (t : ℚ) (hne : readings ≠ []) :
    (calculateChunkedMetrics readings t).length
        = numChunksOf readings.length (chunkConfig t).size ∧
    readings.length ≤ (calculateChunkedMetrics readings t).length * (chunkConfig t).size ∧
    ((calculateChunkedMetrics readings t).length - 1) * (chunkConfig t).size
        < readings.length ∧
    ((List.range (numChunksOf readings.length (chunkConfig t).size)).map
        fun i => (chunkSlice readings (chunkConfig t).size i).length).sum
      = readings.length ∧
    (∀ i, i + 1 < numChunksOf readings.length (chunkConfig t).size →
      (chunkSlice readings (chunkConfig t).size i).length = (chunkConfig t).size) ∧
    ((List.range (numChunksOf readings.length (chunkConfig t).size)).map
        (chunkSlice readings (chunkConfig t).size)).flatten = readings ∧
    (∀ i, i < numChunksOf readings.length (chunkConfig t).size →
      chunkSlice readings (chunkConfig t).size i
        = (readings.drop (i * (chunkConfig t).size)).take
            (min ((i + 1) * (chunkConfig t).size) readings.length
              - i * (chunkConfig t).size)) := by
  have hc := chunkConfig_size_pos t
  have hn : 0 < readings.length := List.length_pos.mpr hne
  have hlen := calculateChunkedMetrics_length readings t
  have hNpos : 0 < numChunksOf readings.length (chunkConfig t).size :=
    (lt_numChunksOf_iff hc hn).mpr (by omega)
  refine ⟨hlen, ?_, ?_, ?_, ?_, flatten_chunkSlices_all readings hc, ?_⟩
  · rw [hlen]; exact le_numChunksOf_mul hc
  · rw [hlen]
    have := (lt_numChunksOf_iff hc hn).mp
      (show numChunksOf readings.length (chunkConfig t).size - 1
          < numChunksOf readings.length (chunkConfig t).size by omega)
    omega
  · have h2 := congrArg List.length (flatten_chunkSlices_all readings hc)
    rw [List.length_flatten, List.map_map] at h2
    exact h2
  · intro i hi
    have h1 := (lt_numChunksOf_iff hc hn).mp (show i + 1 < _ from hi)
    rw [Nat.succ_mul] at h1
    rw [chunkSlice_length]
    omega
  · intro i hi
    have h1 := (lt_numChunksOf_iff hc hn).mp hi
    unfold chunkSlice
    rw [List.take_eq_take]
    rw [List.length_drop, Nat.succ_mul]
    omega

/-- C2 witness: 17 readings at selector 1 (chunk size 15) give 2 chunks. -/
theorem c2_chunking_partition_witness :
    demoR 17 ≠ [] ∧ (calculateChunkedMetrics (demoR 17) 1).length = 2 := by
  refine ⟨by decide, ?_⟩
  have h := (c2_chunking_partition (demoR 17) 1 (by decide)).1
  rw [h]
  decide

/-- C3: the returned chunk list is the reverse of the generation-order list
(whose element at position `i` carries `chunkIndex = i`, oldest first), so
reversing the returned list restores generation order; the statistics table
consumes the returned (most-recent-first) list directly while the
per-period chart consumes the re-reversed (chronological) list. -/
theorem c3_output_reversed (readings : List Reading) (t : ℚ) :
    calculateChunkedMetrics readings t = (genChunks readings t).reverse ∧
    (calculateChunkedMetrics readings t).reverse = genChunks readings t ∧
    (genChunks readings t).map Chunk.chunkIndex
      = List.range (genChunks readings t).length ∧
    chunkTableRows readings t = (genChunks readings t).reverse ∧
    chunkChartData readings t
      = (genChunks readings t).map fun c => (c.label, c.tempMean, c.tempRoC) := by
  refine ⟨calculateChunkedMetrics_eq_rev readings t, ?_,
    genChunks_map_chunkIndex readings t, ?_, ?_⟩
  · rw [calculateChunkedMetrics_eq_rev, List.reverse_reverse]
  · show (calculateChunkedMetrics readings t).map (fun c => c) = _
    rw [List.map_id', calculateChunkedMetrics_eq_rev]
  · show ((calculateChunkedMetrics readings t).reverse).map _ = _
    rw [calculateChunkedMetrics_eq_rev, List.reverse_reverse]

/-- C4: the half-to-half split takes `midpoint = floor(n / 2)`, the first
half is `readings[0, midpoint)` and the second `readings[midpoint, n)`, so
the first half has `floor(n / 2)` readings, the lengths sum to `n`, and the
two halves concatenate back to the input. -/
theorem c4_half_split (readings : List Reading) :
    halfMidpoint readings = readings.length / 2 ∧
    (firstHalf readings).length = readings.length / 2 ∧
    (firstHalf readings).length + (secondHalf readings).length = readings.length ∧
    firstHalf readings ++ secondHalf readings = readings := by
  refine ⟨rfl, ?_, ?_, List.take_append_drop ..⟩
  · rw [firstHalf, halfMidpoint, List.length_take]
    have := Nat.div_le_self readings.length 2
    omega
  · rw [firstHalf, secondHalf, List.length_take, List.length_drop, halfMidpoint]
    have := Nat.div_le_self readings.length 2
    omega

/-- C5 counterexample: the single chunk over the readings `[0, 5]` has two
readings, yet its temperature rate-of-change is `Infinity` (the code divides
by the first value `0` unguarded) — not the percentage formula's value under
exact arithmetic and not any finite two-decimal number. -/
theorem c5_chunk_roc_zero_cex :
    ((calculateChunkedMetrics zeroFirstReadings 4).headD defChunk).tempRoC = RocStr.posInf ∧
    RocStr.posInf ≠ RocStr.num (toFixed2 ((5 - 0) / 0 * 100)) ∧
    RocStr.posInf.isNum = false := by
  refine ⟨?_, by decide, by decide⟩
  have hN : numChunksOf zeroFirstReadings.length (chunkConfig 4).size = 1 := by decide
  have hr1 : List.range 1 = [0] := by decide
  rw [calculateChunkedMetrics_eq_rev]
  simp only [genChunks, hN, hr1, List.map_cons, List.map_nil,
    List.reverse_singleton, List.headD_cons]
  show chunkRoc ((chunkSlice zeroFirstReadings (chunkConfig 4).size 0).map Reading.tempF)
      = RocStr.posInf
  have hvals : (chunkSlice zeroFirstReadings (chunkConfig 4).size 0).map Reading.tempF
      = [0, 5] := by decide
  rw [hvals]
  norm_num [chunkRoc, jsRocFixed2]

/-- C5 (amended): every chunk returned by `calculateChunkedMetrics` is the
generated chunk of its `chunkIndex`, and each metric's rate-of-change cell
obeys: with at least two readings and a nonzero first value it equals
`(last - first) / first * 100` rounded to two decimals; with a zero first
value the unguarded division makes it non-finite (`NaN` when the last value
is also zero, otherwise the signed infinity), never the `"N/A"` sentinel
and never a finite number; with fewer than two readings it is the constant
`0.00` (rendered exactly as the string `"0.00"`). -/
theorem c5_chunk_roc_formula (readings : List Reading) (t : ℚ) (i : Nat)
    (hi : i < numChunksOf readings.length (chunkConfig t).size) :
    mkChunk (chunkConfig t) t (numChunksOf readings.length (chunkConfig t).size) i
        (chunkSlice readings (chunkConfig t).size i) ∈ calculateChunkedMetrics readings t ∧
    (∀ ch ∈ calculateChunkedMetrics readings t,
      ch = mkChunk (chunkConfig t) t (numChunksOf readings.length (chunkConfig t).size)
        ch.chunkIndex (chunkSlice readings (chunkConfig t).size ch.chunkIndex)) ∧
    rocFieldSpec (sliceVals Reading.tempF readings t i)
      (mkChunk (chunkConfig t) t (numChunksOf readings.length (chunkConfig t).size) i
        (chunkSlice readings (chunkConfig t).size i)).tempRoC ∧
    rocFieldSpec (sliceVals Reading.pressurePSI readings t i)
      (mkChunk (chunkConfig t) t (numChunksOf readings.length (chunkConfig t).size) i
        (chunkSlice readings (chunkConfig t).size i)).pressureRoC ∧
    rocFieldSpec (sliceVals Reading.vibrationMM readings t i)
      (mkChunk (chunkConfig t) t (numChunksOf readings.length (chunkConfig t).size) i
        (chunkSlice readings (chunkConfig t).size i)).vibrationRoC ∧
    rocRender (RocStr.num 0) = "0.00" := by
  refine ⟨?_, ?_, chunkRoc_spec _, chunkRoc_spec _, chunkRoc_spec _, rocRender_num_zero⟩
  · rw [calculateChunkedMetrics_eq_rev, List.mem_reverse]
    simp only [genChunks]
    exact List.mem_map.mpr ⟨i, List.mem_range.mpr hi, rfl⟩
  · intro ch hmem
    obtain ⟨i0, hi0, rfl⟩ := mem_calculateChunkedMetrics hmem
    rfl

/-- C5 witness: over the readings `[1, 3]` in one chunk the temperature
rate-of-change equals the rounded percentage formula, and over a single
reading it is the constant `0.00`. -/
theorem c5_chunk_roc_formula_witness :
    (mkChunk (chunkConfig 4) 4 (numChunksOf demoPair.length (chunkConfig 4).size) 0
        (chunkSlice demoPair (chunkConfig 4).size 0)).tempRoC
      = RocStr.num (toFixed2
          (((sliceVals Reading.tempF demoPair 4 0).getLastD 0
              - (sliceVals Reading.tempF demoPair 4 0).headD 0)
            / (sliceVals Reading.tempF demoPair 4 0).headD 0 * 100)) ∧
    (mkChunk (chunkConfig 24) 24 (numChunksOf demoOne.length (chunkConfig 24).size) 0
        (chunkSlice demoOne (chunkConfig 24).size 0)).tempRoC = RocStr.num 0 :=
  ⟨((c5_chunk_roc_formula demoPair 4 0 (by decide)).2.2.1.1 (by decide)).1 (by decide),
   (c5_chunk_roc_formula demoOne 24 0 (by decide)).2.2.1.2 (by decide)⟩

/-- C6 counterexample: two invocations on identical inputs but at different
wall-clock instants produce different report line lists and different
serialized report texts (the `"Generated: ..."` line embeds the clock), so
the output is not byte-identical and does depend on time of call. -/
theorem c6_report_clock_cex :
    buildReportLines demoAsset none [] 4 stampA ≠ buildReportLines demoAsset none [] 4 stampB ∧
    buildReport demoAsset none [] 4 stampA ≠ buildReport demoAsset none [] 4 stampB := by
  constructor
  · intro hcontra
    have h2 := congrArg (fun l => l.getD 1 "") hcontra
    exact absurd h2 (by decide)
  · intro hcontra
    have h2 := congrArg String.length hcontra
    rw [buildReport_clock_shape, buildReport_clock_shape] at h2
    simp only [String.length_append] at h2
    have hA : stampA.localeString.length = 21 := by decide
    have hB : stampB.localeString.length = 17 := by decide
    rw [hA, hB] at h2
    omega

/-- C6 (amended): the half-to-half metrics and the chunk sequence are pure
functions of the readings and the selector; the serialized report
additionally captures the ambient clock at the moment of the call, which
enters exactly twice — the date in the filename and the `"Generated: ..."`
line (line 2 of the report) — and every other report line is identical
across calls with the same inputs. -/
theorem c6_report_determinism (asset : Asset) (prediction : Option Prediction)
    (readings : List Reading) (t : ℚ) (now now' : DateStamp) :
    (buildReportLines asset prediction readings t now).eraseIdx 1
      = (buildReportLines asset prediction readings t now').eraseIdx 1 ∧
    (buildReportLines asset prediction readings t now).getD 1 ""
      = "\"Generated: " ++ now.localeString ++ "\"" ∧
    buildReport asset prediction readings t now
      = ("\"Asset Detailed Report - " ++ asset.name ++ "\"") ++ "\x0a"
        ++ (("\"Generated: " ++ now.localeString ++ "\"") ++ "\x0a"
          ++ joinLines (reportBodyLines asset prediction readings t)) ∧
    reportFilename asset t now
      = squashWs asset.name ++ "_" ++ jsNumRepr t ++ "h_report_" ++ now.isoDate ++ ".csv" :=
  ⟨rfl, rfl, buildReport_clock_shape asset prediction readings t now, rfl⟩

/-- C7: the chunk-config lookup is total — selectors 1, 4, 8, 12, 24 map to
their table entries and every other rational selector maps to the 60-minute
`"1hr"` fallback; a 60-reading input at selector 1 yields 4 chunks and a
1440-reading input at selector 24 yields 8 chunks. -/
theorem c7_chunk_config_total (t : ℚ) :
    chunkConfig 1 = ⟨15, "15min"⟩ ∧ chunkConfig 4 = ⟨60, "1hr"⟩ ∧
    chunkConfig 8 = ⟨60, "1hr"⟩ ∧ chunkConfig 12 = ⟨120, "2hr"⟩ ∧
    chunkConfig 24 = ⟨180, "3hr"⟩ ∧
    (t ≠ 1 → t ≠ 4 → t ≠ 8 → t ≠ 12 → t ≠ 24 → chunkConfig t = ⟨60, "1hr"⟩) ∧
    (∀ readings : List Reading, readings.length = 60 →
      (calculateChunkedMetrics readings 1).length = 4) ∧
    (∀ readings : List Reading, readings.length = 1440 →
      (calculateChunkedMetrics readings 24).length = 8) := by
  refine ⟨by decide, by decide, by decide, by decide, by decide, ?_, ?_, ?_⟩
  · intro h1 h4 h8 h12 h24
    simp [chunkConfig, chunkSizes, h1, h4, h8, h12, h24]
  · intro readings h
    rw [calculateChunkedMetrics_length, h]
    decide
  · intro readings h
    rw [calculateChunkedMetrics_length, h]
    decide

/-- C7 witness: selector 7 is not in the table and falls back to the
60-minute config; 60 readings at selector 1 give 4 chunks and 1440 readings
at selector 24 give 8 chunks. -/
theorem c7_chunk_config_total_witness :
    chunkConfig 7 = ⟨60, "1hr"⟩ ∧
    (calculateChunkedMetrics (demoR 60) 1).length = 4 ∧
    (calculateChunkedMetrics (demoR 1440) 24).length = 8 :=
  ⟨(c7_chunk_config_total 7).2.2.2.2.2.1 (by simp) (by simp) (by simp) (by simp) (by simp),
   (c7_chunk_config_total 7).2.2.2.2.2.2.1 (demoR 60) (by simp [demoR_length]),
   (c7_chunk_config_total 7).2.2.2.2.2.2.2 (demoR 1440) (by simp [demoR_length])⟩

/-- C8: on an empty reading sequence no error is raised — the chunking
operation returns the empty chunk list, both halves report every
mean/max/min aggregate as the `"N/A"` sentinel, and all nine half-to-half
rate-of-change cells are the sentinel. -/
theorem c8_empty_input (t : ℚ) :
    calculateChunkedMetrics [] t = [] ∧
    calcMetrics (firstHalf ([] : List Reading))
      = ⟨none, none, none, none, none, none, none, none, none⟩ ∧
    calcMetrics (secondHalf ([] : List Reading))
      = ⟨none, none, none, none, none, none, none, none, none⟩ ∧
    trendRoCs [] = [RocStr.na, RocStr.na, RocStr.na, RocStr.na, RocStr.na,
      RocStr.na, RocStr.na, RocStr.na, RocStr.na] := by
  refine ⟨?_, by decide, by decide, by decide⟩
  simp [calculateChunkedMetrics]

/-- C9: for the 1-hour selector, every input of at most 60 readings (the
selector's implied budget) gives every generated chunk the period label
`"Last 15min"` — the `hoursAgoEnd = 0` branch fires for every chunk, so the
minutes-ago branch is unreachable within the budget. -/
theorem c9_selector1_labels (readings : List Reading) (hlen : readings.length ≤ 60) :
    ∀ ch ∈ calculateChunkedMetrics readings 1, ch.label = "Last 15min" := by
  intro ch hmem
  obtain ⟨i, hi, rfl⟩ := mem_calculateChunkedMetrics hmem
  show periodLabel (chunkConfig 1) 1 (numChunksOf readings.length (chunkConfig 1).size) i
      = "Last 15min"
  have hsz : (chunkConfig 1).size = 15 := by decide
  have hN : numChunksOf readings.length 15 ≤ 4 := by
    unfold numChunksOf
    omega
  have hend : (numChunksOf readings.length (chunkConfig 1).size - i - 1)
      * (chunkConfig 1).size / 60 = 0 := by
    rw [hsz]
    exact Nat.div_eq_of_lt (by omega)
  simp only [periodLabel]
  rw [if_pos hend]
  decide

/-- C9 witness: 16 readings are within the 60-reading budget and the most
recent chunk of the output carries the label `"Last 15min"`. -/
theorem c9_selector1_labels_witness :
    (demoR 16).length ≤ 60 ∧
    ((calculateChunkedMetrics (demoR 16) 1).headD defChunk).label = "Last 15min" := by
  refine ⟨by simp [demoR_length], ?_⟩
  apply c9_selector1_labels (demoR 16) (by simp [demoR_length])
  apply headD_mem
  intro hnil
  have h := calculateChunkedMetrics_length (demoR 16) 1
  have hlen : (demoR 16).length = 16 := by simp [demoR_length]
  rw [hnil, hlen] at h
  exact absurd h.symm (by decide)

/-- C10: the chronological view is built by spread-copying the fetched
array and reversing the copy in place — afterwards the original array is
unchanged (its first element, the newest reading, in particular), the new
array is its reverse, and the new reference is distinct from the old. -/
theorem c10_chronological_copy (h : ArrayHeap) (r : Nat) (hr : r < h.arrays.length) :
    heapGet (chronoSetup h r).2 r = heapGet h r ∧
    heapGet (chronoSetup h r).2 (chronoSetup h r).1 = (heapGet h r).reverse ∧
    (heapGet (chronoSetup h r).2 r).headD ⟨0, 0, 0, ""⟩
      = (heapGet h r).headD ⟨0, 0, 0, ""⟩ ∧
    (chronoSetup h r).1 ≠ r := by
  have h1 : heapGet (chronoSetup h r).2 r = heapGet h r := by
    simp only [chronoSetup, spreadAlloc, reverseInPlace, heapGet]
    rw [List.getD_eq_getElem?_getD, List.getD_eq_getElem?_getD,
      List.getElem?_set_ne (by omega), List.getElem?_append_left hr]
  refine ⟨h1, ?_, by rw [h1], by simp [chronoSetup, spreadAlloc]; omega⟩
  simp only [chronoSetup, spreadAlloc, reverseInPlace, heapGet]
  rw [List.getD_eq_getElem?_getD, List.getElem?_set_self (by simp),
    List.getD_eq_getElem?_getD, List.getElem?_concat_length]
  rfl

/-- C10 witness: on a one-array heap, after building the chronological
copy the original array is unchanged. -/
theorem c10_chronological_copy_witness :
    0 < demoHeap.arrays.length ∧
    heapGet (chronoSetup demoHeap 0).2 0 = heapGet demoHeap 0 :=
  ⟨by decide, (c10_chronological_copy demoHeap 0 (by decide)).1⟩

end Dashboard
